import Mathlib

/-!
Verification development for the Symbolizer-for-VEX-V5 resolution pipeline.

The TypeScript source is shallowly embedded here:

* JavaScript strings become `List Char` (`JSStr`); the JS string methods the
  source uses (`trim`, `split`, `substring`, `lastIndexOf`, `includes`,
  `startsWith`, first-occurrence `replace`, `Number.parseInt`) are embedded as
  executable functions with JavaScript's clamping/`NaN` behaviour.
* `vscode.Uri` values are identified with their path strings; `vscode.Position`
  stores its `line`/`character` coordinates as `Option Int`, where `none`
  stands for JavaScript's `NaN` (which `vscode.Position` accepts, since its
  only guard is `line < 0`, false for `NaN`).
* External effects (filesystem stats, subprocess output) are passed in as
  explicit data: a `stat` function for the locator, the tool's decoded output
  for the readers, and behaviour records for the orchestrator.
* The orchestrator's async control flow is linearized: `getWorkingReader` is
  started before the locator loop in the source and its first health probe runs
  synchronously at the call site, so we run it to completion first.  Traces of
  reader invocations (`Event`) make "never invoked" properties statable.
-/

/-- JavaScript strings, embedded as lists of characters. -/
abbrev JSStr := List Char

/-- JS `String.prototype.trim`: drop whitespace from both ends. -/
def trimJS (s : JSStr) : JSStr :=
  ((s.dropWhile Char.isWhitespace).reverse.dropWhile Char.isWhitespace).reverse

/-- JS `s.split(EOL)` with the platform end-of-line taken as `'\n'`.
Like in JavaScript, splitting the empty string yields `[""]`, so the result
is always non-empty. -/
def splitOnNewline : JSStr → List JSStr
  | [] => [[]]
  | c :: rest =>
    let r := splitOnNewline rest
    if c = '\n' then [] :: r
    else
      match r with
      | h :: t => (c :: h) :: t
      | [] => [[c]]

/-- JS `s.lastIndexOf(c)`: index of the last occurrence of `c`, `-1` if none. -/
def lastIndexOfJS (c : Char) : JSStr → Int
  | [] => -1
  | a :: rest =>
    let r := lastIndexOfJS c rest
    if 0 ≤ r then r + 1 else if a = c then 0 else -1

/-- JS `s.substring(a, b)`: clamps both arguments into `[0, length]` and swaps
them when `a > b`. -/
def substringJS (s : JSStr) (a b : Int) : JSStr :=
  let len : Int := s.length
  let a' : Nat := (max 0 (min a len)).toNat
  let b' : Nat := (max 0 (min b len)).toNat
  if a' ≤ b' then (s.take b').drop a' else (s.take a').drop b'

/-- Models `Number.parseInt` on the inputs this program feeds it (default
radix, decimal digits): skip leading whitespace, read an optional sign, then
the longest prefix of decimal digits; `none` stands for `NaN` when no digit is
found. -/
def parseIntJS (s : JSStr) : Option Int :=
  let s₁ := s.dropWhile Char.isWhitespace
  let signAndRest : Bool × JSStr :=
    match s₁ with
    | '-' :: rest => (true, rest)
    | '+' :: rest => (false, rest)
    | _ => (false, s₁)
  let ds := signAndRest.2.takeWhile Char.isDigit
  if ds.isEmpty then none
  else
    let n : Nat := ds.foldl (fun acc c => acc * 10 + (c.toNat - 48)) 0
    some (if signAndRest.1 then -(n : Int) else (n : Int))

/-- JS `s.includes(pat)`: does `pat` occur as a contiguous substring? -/
def includesJS (pat : JSStr) : JSStr → Bool
  | [] => pat.isPrefixOf []
  | c :: rest => pat.isPrefixOf (c :: rest) || includesJS pat rest

/-- JS `s.replace(pat, rep)` with a string pattern: replace the first
occurrence of `pat` (if any) by `rep`. -/
def replaceFirst (pat rep : JSStr) : JSStr → JSStr
  | [] => if pat.isPrefixOf [] then rep else []
  | c :: rest =>
    if pat.isPrefixOf (c :: rest) then rep ++ (c :: rest).drop pat.length
    else c :: replaceFirst pat rep rest

/-- `vscode.Position` from `symbolization.ts`: line and column coordinates.
`none` stands for JavaScript's `NaN` (accepted by the `vscode.Position`
constructor, whose only checks are `line < 0` / `character < 0`). -/
structure Position where
  line : Option Int
  character : Option Int
deriving DecidableEq, Repr

/-- `ResolvedLocation` from `symbolization.ts`: the `vscode.Uri` is identified
with its path string. -/
structure ResolvedLocation where
  uri : JSStr
  position : Position
deriving DecidableEq, Repr

/-- `ResolvedSymbol` from `symbolization.ts` (field order as in the source). -/
structure ResolvedSymbol where
  sourceLocation : Option ResolvedLocation
  codeObject : JSStr
  symbolName : JSStr
deriving DecidableEq, Repr

namespace GNUBinutilsCodeObjectReader

/-- `GNUBinutilsCodeObjectReader.resolveLocation` from `readers.ts`: split the
addr2line location line at its last `':'`; a path component of `"??"` means
the location is unknown. -/
def resolveLocation (locationString : JSStr) : Option ResolvedLocation :=
  let lineNumberSplit := lastIndexOfJS ':' locationString
  let path := substringJS locationString 0 lineNumberSplit
  let lineString :=
    substringJS locationString (lineNumberSplit + 1) (locationString.length : Int)
  if path = ("??").data then none
  else
    some
      { uri := path
        position := { line := (parseIntJS lineString).map (fun n => n - 1), character := some 0 } }

/-- `GNUBinutilsCodeObjectReader.resolveToSymbolInObject` from `readers.ts`,
with the addr2line process replaced by its captured `stdout`.  The source
destructures the first two lines of the trimmed output; when there is no
second line, `locationString` is `undefined` and the `lastIndexOf` call inside
`resolveLocation` raises a `TypeError`, embedded as the error branch. -/
def resolveToSymbolInObject (stdout : JSStr) (codeObject : JSStr) :
    Except JSStr ResolvedSymbol :=
  match splitOnNewline (trimJS stdout) with
  | symbolName :: locationString :: _ =>
    .ok
      { sourceLocation := resolveLocation locationString
        symbolName := symbolName
        codeObject := codeObject }
  | _ => .error ("TypeError").data

end GNUBinutilsCodeObjectReader

/-- `LLVMSymbolizerSymbol` from `readers.ts`.  JSON strings that may be empty
(`llvm-symbolizer` emits `""` for unknown names/paths, which is falsy in JS)
stay plain strings; emptiness is the falsiness test the source performs. -/
structure LLVMSymbolizerSymbol where
  Column : Int
  Discriminator : Int
  FileName : JSStr
  Line : Int
  StartAddress : JSStr
  StartFileName : JSStr
  StartLine : Int
  FunctionName : JSStr
deriving DecidableEq, Repr

/-- `LLVMSymbolizerEntry` from `readers.ts`. -/
structure LLVMSymbolizerEntry where
  Address : JSStr
  ModuleName : JSStr
  Symbol : List LLVMSymbolizerSymbol
deriving DecidableEq, Repr

namespace LLVMCodeObjectReader

/-- `LLVMCodeObjectReader.resolveLocation` from `readers.ts`: an absent (falsy,
i.e. empty) `FileName` yields no location; otherwise 1-based line/column are
converted to the 0-based `vscode.Position`. -/
def resolveLocation (symbol : LLVMSymbolizerSymbol) : Option ResolvedLocation :=
  if symbol.FileName.isEmpty then none
  else
    some
      { uri := symbol.FileName
        position := { line := some (symbol.Line - 1), character := some (symbol.Column - 1) } }

/-- `LLVMCodeObjectReader.resolveToSymbolInObject` from `readers.ts`, with the
`llvm-symbolizer` process replaced by its parsed JSON output. -/
def resolveToSymbolInObject (parsedOutput : List LLVMSymbolizerEntry)
    (codeObject : JSStr) : Except JSStr ResolvedSymbol :=
  match parsedOutput.head? with
  | none => .error ("No symbolizer entry for this address").data
  | some entry =>
    match entry.Symbol.head? with
    | none => .error ("No symbol data for this address").data
    | some symbol =>
      if symbol.FunctionName.isEmpty then .error ("The symbol does not exist").data
      else
        .ok
          { sourceLocation := resolveLocation symbol
            codeObject := codeObject
            symbolName := symbol.FunctionName }

end LLVMCodeObjectReader

/-- `TimestampedFile` from `locators/pros.ts`. -/
structure TimestampedFile where
  uri : JSStr
  timestamp : Int
deriving DecidableEq, Repr

/-- `vscode.Uri.joinPath(folder, p)` on the relative paths the locator uses:
joins with `'/'`, normalizing away a leading `"./"`. -/
def joinPath (folder p : JSStr) : JSStr :=
  match p with
  | '.' :: '/' :: rest => folder ++ ('/' :: rest)
  | _ => folder ++ ('/' :: p)

namespace PROSCodeObjectLocator

/-- `PROSCodeObjectLocator.isPROSProject` from `locators/pros.ts`: the folder
is a PROS project iff `project.pros` can be stat'ed.  The filesystem is passed
in as `stat`, mapping a path to its mtime when the file exists. -/
def isPROSProject (stat : JSStr → Option Int) (uri : JSStr) : Bool :=
  (stat (joinPath uri ("./project.pros").data)).isSome

/-- `PROSCodeObjectLocator.getCodeObjectAt` from `locators/pros.ts`: stat the
path, returning the file with its mtime, or `none` when stat throws. -/
def getCodeObjectAt (stat : JSStr → Option Int) (uri : JSStr) :
    Option TimestampedFile :=
  (stat uri).map (fun m => { uri := uri, timestamp := m })

/-- The fixed artifact paths probed by `findObjectUris`, in source order. -/
def prosObjectPaths : List JSStr :=
  [("./bin/hot.package.elf").data, ("./bin/cold.package.elf").data,
   ("./bin/monolith.elf").data]

/-- The source's stable ascending sort `(a, b) => a.timestamp - b.timestamp`
(JS `Array.prototype.sort` is stable): insertion step. -/
def insertByTimestamp (x : TimestampedFile) : List TimestampedFile → List TimestampedFile
  | [] => [x]
  | y :: ys =>
    if x.timestamp ≤ y.timestamp then x :: y :: ys else y :: insertByTimestamp x ys

/-- The source's stable ascending sort by `timestamp`. -/
def sortByTimestamp : List TimestampedFile → List TimestampedFile
  | [] => []
  | x :: xs => insertByTimestamp x (sortByTimestamp xs)

/-- In the source, `findObjectUris` tests `!PROSCodeObjectLocator.isPROSProject(folder)`
WITHOUT awaiting the returned `Promise`.  A `Promise` object is always truthy,
so the guard is dead code: this constant embeds the truthiness of that
un-awaited promise. -/
def isPROSProjectPromiseTruthy : Bool := true

/-- `PROSCodeObjectLocator.findObjectUris` from `locators/pros.ts`: probe the
three fixed artifact paths, keep the ones that exist, and sort them ascending
by modification time.  Because of the missing `await` (see
`isPROSProjectPromiseTruthy`) the not-a-PROS-project error is never thrown. -/
def findObjectUris (stat : JSStr → Option Int) (folder : JSStr) :
    Except JSStr (List JSStr) :=
  if !isPROSProjectPromiseTruthy then
    .error ("The specified folder is not a PROS project.").data
  else
    let objects := prosObjectPaths.map (fun p => getCodeObjectAt stat (joinPath folder p))
    .ok ((sortByTimestamp (objects.filterMap id)).map TimestampedFile.uri)

end PROSCodeObjectLocator

namespace Symbolizer

/-- Model of one configured `CodeObjectReader`'s observable behaviour for a
single resolution request: `isWorking` may change over time (its argument is
the number of health probes performed so far, so "the tool got uninstalled"
is expressible), `resolve` maps a code-object URI to the reader's result for
the request's address.  Per the reader contract (and both implementations in
`readers.ts`), `isWorking` catches all failures and returns a `Bool`. -/
structure ReaderBehavior where
  isWorking : Nat → Bool
  resolve : JSStr → Except JSStr ResolvedSymbol

/-- Observable reader invocations performed by the `Symbolizer`. -/
inductive Event where
  | isWorking (readerIdx : Nat)
  | resolve (readerIdx : Nat) (codeObject : JSStr)
deriving DecidableEq, Repr

/-- The probing loop inside `Symbolizer.getWorkingReader` (the branch taken
when no reader is cached): try each reader in configured order, stopping at
the first healthy one.  Returns the probe trace, the found reader's index
(which is also the new cache) and the advanced probe clock. -/
def probeList : List ReaderBehavior → Nat → Nat → List Event × Option Nat × Nat
  | [], _, t => ([], none, t)
  | r :: rest, idx, t =>
    if r.isWorking t then ([Event.isWorking idx], some idx, t + 1)
    else
      let step := probeList rest (idx + 1) (t + 1)
      (Event.isWorking idx :: step.1, step.2.1, step.2.2)

/-- `Symbolizer.getWorkingReader` from `symbolization.ts`.  The cache
`#firstWorkingReader` is modelled as an index into `readers` (it always holds
a reader taken from that list).  With an empty cache the full list is probed;
with a cached reader it is re-probed first, and on failure the source clears
the cache and recurses — that recursive call with an emptied cache is exactly
the probing loop, embedded as a direct `probeList` call.  (The out-of-range
index case cannot arise and is mapped to a fresh probe as well.)  Returns the
probe trace, the resulting reader index (= the new cache value) and the
advanced probe clock. -/
def getWorkingReader (readers : List ReaderBehavior) (cache : Option Nat) (t : Nat) :
    List Event × Option Nat × Nat :=
  match cache with
  | none => probeList readers 0 t
  | some i =>
    match readers[i]? with
    | none => probeList readers 0 t
    | some r =>
      if r.isWorking t then ([Event.isWorking i], some i, t + 1)
      else
        let step := probeList readers 0 (t + 1)
        (Event.isWorking i :: step.1, step.2.1, step.2.2)

/-- The locator loop of `Symbolizer.resolveToSymbol`: each locator's
`findObjectUris(folder)` outcome is passed in as data; the loop appends the
first non-empty success and stops, skipping failures and empty results. -/
def locateCodeObjects : List (Except JSStr (List JSStr)) → List JSStr
  | [] => []
  | Except.ok found :: rest =>
    if found.length > 0 then found else locateCodeObjects rest
  | Except.error _ :: rest => locateCodeObjects rest

/-- The candidate loop of `Symbolizer.resolveToSymbol` (source lines 192-221):
resolve each code object in order; a result carrying a source location stops
the loop, a location-less result is retained in `resolved` (each later success
overwrites it) while iteration continues, and errors are collected.  Returns
the trace of `resolve` invocations, the final value of `resolved`, and the
collected errors. -/
def resolveLoop (readerIdx : Nat) (resolve : JSStr → Except JSStr ResolvedSymbol) :
    List JSStr → List Event × Option ResolvedSymbol × List JSStr
  | [] => ([], none, [])
  | codeObject :: rest =>
    match resolve codeObject with
    | Except.ok r =>
      if r.sourceLocation.isNone then
        let step := resolveLoop readerIdx resolve rest
        (Event.resolve readerIdx codeObject :: step.1,
         (match step.2.1 with
          | some later => some later
          | none => some r),
         step.2.2)
      else ([Event.resolve readerIdx codeObject], some r, [])
    | Except.error e =>
      let step := resolveLoop readerIdx resolve rest
      (Event.resolve readerIdx codeObject :: step.1, step.2.1, e :: step.2.2)

/-- The `Symbolizer`'s configuration for one request: each locator's outcome
on the request's folder, and each reader's behaviour. -/
structure Config where
  locators : List (Except JSStr (List JSStr))
  readers : List ReaderBehavior

/-- The failures `Symbolizer.resolveToSymbol` can throw. -/
inductive SymErr where
  /-- "Cannot find any code objects in this project" -/
  | noCandidates
  /-- "Cannot find any working code object readers; install one of: ..." -/
  | noWorkingReaders
  /-- `AggregateError(errors, "This address could not be resolved to a line")` -/
  | allCandidatesFailed (errors : List JSStr)
deriving DecidableEq, Repr

/-- `Symbolizer.resolveToSymbol` from `symbolization.ts`.  In the source,
`this.getWorkingReader()` is called (un-awaited) before the locator loop and
synchronously begins probing; we linearize the request by running it to
completion first, then the locator loop, then the candidate loop.  Returns
the trace of reader invocations, the outcome, and the new reader cache. -/
def resolveToSymbol (cfg : Config) (cache : Option Nat) :
    List Event × Except SymErr ResolvedSymbol × Option Nat :=
  let readerStep := getWorkingReader cfg.readers cache 0
  let locatedCodeObjects := locateCodeObjects cfg.locators
  if locatedCodeObjects.length = 0 then
    (readerStep.1, Except.error SymErr.noCandidates, readerStep.2.1)
  else
    match readerStep.2.1 with
    | none => (readerStep.1, Except.error SymErr.noWorkingReaders, none)
    | some i =>
      match cfg.readers[i]? with
      | none => (readerStep.1, Except.error SymErr.noWorkingReaders, some i)
      | some r =>
        let step := resolveLoop i r.resolve locatedCodeObjects
        match step.2.1 with
        | some resolved => (readerStep.1 ++ step.1, Except.ok resolved, some i)
        | none =>
          (readerStep.1 ++ step.1, Except.error (SymErr.allCandidatesFailed step.2.2),
           some i)

/-- `#vexCodeAutoFixDebugInfoInsertionPoint` from `symbolization.ts`. -/
def vexCodeAutoFixDebugInfoInsertionPoint : JSStr := ("include vex/mkenv.mk").data

/-- `Symbolizer.canAutoFixVEXCodeDebugInfo` from `symbolization.ts`, applied
to already-read makefile contents: it must be a VEXcode makefile, contain the
insertion point, and not already contain `" -g"`. -/
def canAutoFixVEXCodeDebugInfo (makefile : JSStr) : Bool :=
  ("# VEXcode makefile").data.isPrefixOf makefile &&
  includesJS vexCodeAutoFixDebugInfoInsertionPoint makefile &&
  !(includesJS (" -g").data makefile)

/-- The text `autoFixVEXCodeDebugInfo` substitutes for the insertion point. -/
def debugInfoReplacement : JSStr :=
  vexCodeAutoFixDebugInfoInsertionPoint ++
    ("\n\n# enable debug metadata\nCFLAGS += -g\nCXX_FLAGS += -g").data

/-- `Symbolizer.autoFixVEXCodeDebugInfo` from `symbolization.ts`, as a text
transform on the makefile contents: when the fix applies, the first occurrence
of the insertion point is replaced (JS `String.replace` with a string
pattern); otherwise the source aborts, leaving the contents unchanged. -/
def autoFixVEXCodeDebugInfo (makefile : JSStr) : JSStr :=
  if canAutoFixVEXCodeDebugInfo makefile then
    replaceFirst vexCodeAutoFixDebugInfoInsertionPoint debugInfoReplacement makefile
  else makefile

end Symbolizer

/-! Concrete instances used to instantiate the theorems below. -/

/-- A concrete source location (file `/src/x.c`, 0-based line 41). -/
def locC1 : ResolvedLocation :=
  { uri := ("/src/x.c").data, position := { line := some 41, character := some 0 } }

/-- A location-less resolution result read out of `A.elf`. -/
def symAC1 : ResolvedSymbol :=
  { sourceLocation := none, codeObject := ("A.elf").data, symbolName := ("foo").data }

/-- A location-carrying resolution result read out of `B.elf`. -/
def symBC1 : ResolvedSymbol :=
  { sourceLocation := some locC1, codeObject := ("B.elf").data, symbolName := ("foo").data }

/-- A healthy reader that resolves `A.elf` without a location and `B.elf` with
one. -/
def rC1 : Symbolizer.ReaderBehavior :=
  { isWorking := fun _ => true
    resolve := fun u => if u = ("A.elf").data then Except.ok symAC1 else Except.ok symBC1 }

/-- A concrete source location for `symAC2`. -/
def locC2 : ResolvedLocation :=
  { uri := ("/src/y.c").data, position := { line := some 7, character := some 0 } }

/-- A location-carrying resolution result read out of `A.elf`. -/
def symAC2 : ResolvedSymbol :=
  { sourceLocation := some locC2, codeObject := ("A.elf").data, symbolName := ("bar").data }

/-- A healthy reader that resolves `A.elf` with a full location. -/
def rC2 : Symbolizer.ReaderBehavior :=
  { isWorking := fun _ => true
    resolve := fun u =>
      if u = ("A.elf").data then Except.ok symAC2
      else Except.error ("should never be consulted").data }

/-- Filesystem with a hot package modified at time 200 and a cold package
modified at time 100 under `proj/bin`. -/
def statC3 : JSStr → Option Int := fun p =>
  if p = ("proj/bin/hot.package.elf").data then some 200
  else if p = ("proj/bin/cold.package.elf").data then some 100
  else none

/-- Filesystem with no `project.pros` marker but a `bin/monolith.elf`
artifact. -/
def statC4 : JSStr → Option Int := fun p =>
  if p = ("proj/bin/monolith.elf").data then some 100 else none

/-- A configuration whose single locator succeeds with zero candidates and
which has one (healthy) configured reader. -/
def cfgC5 : Symbolizer.Config :=
  { locators := [Except.ok []]
    readers := [{ isWorking := fun _ => true
                  resolve := fun _ => Except.error ("unused").data }] }

/-- A configuration with one erroring locator, one empty locator, and one
configured reader. -/
def cfgC5w : Symbolizer.Config :=
  { locators := [Except.error ("not applicable").data, Except.ok []]
    readers := [{ isWorking := fun _ => true
                  resolve := fun _ => Except.error ("unused").data }] }

/-- An `llvm-symbolizer` symbol with a function name but no file name. -/
def symC7 : LLVMSymbolizerSymbol :=
  { Column := 0, Discriminator := 0, FileName := [], Line := 0,
    StartAddress := ("0x3800000").data, StartFileName := [], StartLine := 0,
    FunctionName := ("main").data }

/-- The `llvm-symbolizer` entry wrapping `symC7`. -/
def entryC7 : LLVMSymbolizerEntry :=
  { Address := ("0x3800074").data, ModuleName := ("bin/monolith.elf").data,
    Symbol := [symC7] }

/-- A reader whose health check always fails. -/
def rBadC8 : Symbolizer.ReaderBehavior :=
  { isWorking := fun _ => false, resolve := fun _ => Except.error ("down").data }

/-- A reader whose health check always succeeds. -/
def rGoodC8 : Symbolizer.ReaderBehavior :=
  { isWorking := fun _ => true, resolve := fun _ => Except.error ("unused").data }

/-- A pristine VEXcode makefile, fixable by the debug-info auto-fix. -/
def makefileC9 : JSStr := ("# VEXcode makefile\ninclude vex/mkenv.mk\n").data

/-- A location-less resolution result read out of `A.elf`. -/
def symAC10 : ResolvedSymbol :=
  { sourceLocation := none, codeObject := ("A.elf").data, symbolName := ("first").data }

/-- A location-less resolution result read out of `B.elf`. -/
def symBC10 : ResolvedSymbol :=
  { sourceLocation := none, codeObject := ("B.elf").data, symbolName := ("second").data }

/-- A healthy reader that resolves `A.elf` and `B.elf` without a location and
fails on `E.elf`. -/
def rC10 : Symbolizer.ReaderBehavior :=
  { isWorking := fun _ => true
    resolve := fun u =>
      if u = ("A.elf").data then Except.ok symAC10
      else if u = ("E.elf").data then Except.error ("boom").data
      else Except.ok symBC10 }

/-! Helper lemmas. -/

/-- `includesJS` decides substring occurrence. -/
theorem includesJS_iff_substring (pat s : JSStr) : includesJS pat s = true ↔ pat <:+: s := by
  induction s with
  | nil =>
    simp [includesJS, List.isPrefixOf_iff_prefix, List.infix_nil, List.prefix_nil]
  | cons c rest ih =>
    simp only [includesJS, Bool.or_eq_true, List.isPrefixOf_iff_prefix, ih]
    constructor
    · rintro (h | h)
      · exact h.isInfix
      · exact List.infix_cons h
    · rintro ⟨s', t', he⟩
      cases s' with
      | nil =>
        left
        exact ⟨t', by simpa using he⟩
      | cons x xs =>
        right
        rw [List.cons_append, List.cons_append, List.cons.injEq] at he
        exact ⟨xs, t', he.2⟩

/-- Replacing the first occurrence of a present pattern splices the
replacement into the string. -/
theorem replaceFirst_decomp (pat rep s : JSStr) (h : includesJS pat s = true) :
    ∃ a b, replaceFirst pat rep s = a ++ rep ++ b := by
  induction s with
  | nil =>
    simp only [includesJS] at h
    exact ⟨[], [], by simp [replaceFirst, h]⟩
  | cons c rest ih =>
    by_cases hp : pat.isPrefixOf (c :: rest) = true
    · exact ⟨[], (c :: rest).drop pat.length, by simp [replaceFirst, hp]⟩
    · have h' : includesJS pat rest = true := by
        simp only [includesJS, Bool.or_eq_true] at h
        rcases h with h | h
        · exact absurd h hp
        · exact h
      obtain ⟨a, b, hab⟩ := ih h'
      exact ⟨c :: a, b, by simp [replaceFirst, hp, hab]⟩

/-- Membership is preserved by the locator's insertion step. -/
theorem mem_insertByTimestamp {x a : TimestampedFile} {l : List TimestampedFile} :
    a ∈ PROSCodeObjectLocator.insertByTimestamp x l ↔ a = x ∨ a ∈ l := by
  induction l with
  | nil => simp [PROSCodeObjectLocator.insertByTimestamp]
  | cons y ys ih =>
    by_cases h : x.timestamp ≤ y.timestamp
    · simp [PROSCodeObjectLocator.insertByTimestamp, h]
    · simp only [PROSCodeObjectLocator.insertByTimestamp, if_neg h, List.mem_cons, ih]
      tauto

/-- Membership is preserved by the locator's sort. -/
theorem mem_sortByTimestamp {a : TimestampedFile} {l : List TimestampedFile} :
    a ∈ PROSCodeObjectLocator.sortByTimestamp l ↔ a ∈ l := by
  induction l with
  | nil => simp [PROSCodeObjectLocator.sortByTimestamp]
  | cons x xs ih =>
    simp [PROSCodeObjectLocator.sortByTimestamp, mem_insertByTimestamp, ih]

/-- The insertion step preserves ascending order of timestamps. -/
theorem pairwise_insertByTimestamp {x : TimestampedFile} {l : List TimestampedFile}
    (h : l.Pairwise (fun a b => a.timestamp ≤ b.timestamp)) :
    (PROSCodeObjectLocator.insertByTimestamp x l).Pairwise
      (fun a b => a.timestamp ≤ b.timestamp) := by
  induction l with
  | nil => simp [PROSCodeObjectLocator.insertByTimestamp]
  | cons y ys ih =>
    rw [List.pairwise_cons] at h
    by_cases hc : x.timestamp ≤ y.timestamp
    · rw [PROSCodeObjectLocator.insertByTimestamp, if_pos hc]
      refine List.Pairwise.cons ?_ (List.Pairwise.cons h.1 h.2)
      intro b hb
      rcases List.mem_cons.mp hb with rfl | hb'
      · exact hc
      · exact le_trans hc (h.1 b hb')
    · rw [PROSCodeObjectLocator.insertByTimestamp, if_neg hc]
      refine List.Pairwise.cons ?_ (ih h.2)
      intro b hb
      rcases mem_insertByTimestamp.mp hb with rfl | hb'
      · omega
      · exact h.1 b hb'

/-- The locator's sort produces a list ascending by timestamp. -/
theorem pairwise_sortByTimestamp (l : List TimestampedFile) :
    (PROSCodeObjectLocator.sortByTimestamp l).Pairwise
      (fun a b => a.timestamp ≤ b.timestamp) := by
  induction l with
  | nil => simp [PROSCodeObjectLocator.sortByTimestamp]
  | cons x xs ih =>
    exact pairwise_insertByTimestamp ih

/-- In an ascending list, the head's timestamp bounds every member's. -/
theorem head_timestamp_le {l : List TimestampedFile} {x y : TimestampedFile}
    (h : l.Pairwise (fun a b => a.timestamp ≤ b.timestamp))
    (hh : l.head? = some x) (hm : y ∈ l) : x.timestamp ≤ y.timestamp := by
  cases l with
  | nil => simp at hh
  | cons a t =>
    simp only [List.head?_cons, Option.some.injEq] at hh
    subst hh
    rw [List.pairwise_cons] at h
    rcases List.mem_cons.mp hm with rfl | hm'
    · exact le_refl _
    · exact h.1 y hm'

/-- Every file the PROS locator gathers carries the mtime `stat` reports for
its path. -/
theorem stat_of_mem_objects {stat : JSStr → Option Int} {folder : JSStr}
    {tf : TimestampedFile}
    (h : tf ∈ (PROSCodeObjectLocator.prosObjectPaths.map
        (fun p => PROSCodeObjectLocator.getCodeObjectAt stat (joinPath folder p))).filterMap id) :
    stat tf.uri = some tf.timestamp := by
  rw [List.mem_filterMap] at h
  obtain ⟨o, ho, hid⟩ := h
  rw [List.mem_map] at ho
  obtain ⟨p, _, rfl⟩ := ho
  simp only [id] at hid
  rw [PROSCodeObjectLocator.getCodeObjectAt, Option.map_eq_some'] at hid
  obtain ⟨m, hm, htf⟩ := hid
  rw [← htf]
  exact hm

/-- When every locator errors or yields zero candidates, the locator loop
produces no code objects. -/
theorem locateCodeObjects_eq_nil {ls : List (Except JSStr (List JSStr))}
    (h : ∀ l ∈ ls, l = Except.ok [] ∨ ∃ e, l = Except.error e) :
    Symbolizer.locateCodeObjects ls = [] := by
  induction ls with
  | nil => rfl
  | cons hd tl ih =>
    have htl : Symbolizer.locateCodeObjects tl = [] :=
      ih fun l hl => h l (List.mem_cons_of_mem _ hl)
    rcases h hd (List.mem_cons_self _ _) with rfl | ⟨e, rfl⟩
    · simpa [Symbolizer.locateCodeObjects] using htl
    · simpa [Symbolizer.locateCodeObjects] using htl

/-- The health-probing loop performs no `resolve` invocations. -/
theorem probeList_no_resolve (l : List Symbolizer.ReaderBehavior) (idx t i : Nat)
    (u : JSStr) :
    Symbolizer.Event.resolve i u ∉ (Symbolizer.probeList l idx t).1 := by
  induction l generalizing idx t with
  | nil => simp [Symbolizer.probeList]
  | cons r rest ih =>
    by_cases hw : r.isWorking t
    · simp [Symbolizer.probeList, hw]
    · simpa [Symbolizer.probeList, hw] using ih (idx + 1) (t + 1)

/-- `getWorkingReader` performs no `resolve` invocations. -/
theorem getWorkingReader_no_resolve (readers : List Symbolizer.ReaderBehavior)
    (cache : Option Nat) (t i : Nat) (u : JSStr) :
    Symbolizer.Event.resolve i u ∉ (Symbolizer.getWorkingReader readers cache t).1 := by
  cases cache with
  | none => exact probeList_no_resolve readers 0 t i u
  | some j =>
    rw [Symbolizer.getWorkingReader]
    cases hj : readers[j]? with
    | none => exact probeList_no_resolve readers 0 t i u
    | some r =>
      by_cases hw : r.isWorking t
      · simp [hw]
      · simpa [hw] using probeList_no_resolve readers 0 (t + 1) i u

/-- A reader returned by the probing loop passed a health check at the probe
step where it was examined. -/
theorem probeList_result_healthy {l : List Symbolizer.ReaderBehavior} {idx t j : Nat}
    (h : (Symbolizer.probeList l idx t).2.1 = some j) :
    ∃ u s, t ≤ u ∧ idx ≤ j ∧ l[j - idx]? = some s ∧ s.isWorking u = true := by
  induction l generalizing idx t with
  | nil => simp [Symbolizer.probeList] at h
  | cons r rest ih =>
    by_cases hw : r.isWorking t
    · rw [Symbolizer.probeList, if_pos hw] at h
      simp only [Option.some.injEq] at h
      subst h
      refine ⟨t, r, Nat.le_refl t, Nat.le_refl idx, ?_, hw⟩
      simp
    · rw [Symbolizer.probeList, if_neg hw] at h
      simp only at h
      obtain ⟨u, s, hu, hij, hget, hws⟩ := ih h
      refine ⟨u, s, by omega, by omega, ?_, hws⟩
      have hidx : j - idx = (j - (idx + 1)) + 1 := by omega
      rw [hidx]
      simpa using hget

/-- One unfolding step of the candidate loop, when the head candidate
resolves successfully without a location. -/
theorem resolveLoop_cons_ok_none {rs : JSStr → Except JSStr ResolvedSymbol}
    {i : Nat} {a : JSStr} {rest : List JSStr} {r : ResolvedSymbol}
    (hra : rs a = Except.ok r) (hla : r.sourceLocation = none) :
    (Symbolizer.resolveLoop i rs (a :: rest)).2.1 =
      match (Symbolizer.resolveLoop i rs rest).2.1 with
      | some later => some later
      | none => some r := by
  simp [Symbolizer.resolveLoop, hra, hla]

/-- One unfolding step of the candidate loop, when the head candidate fails:
the error is recorded and the retained result is the tail loop's. -/
theorem resolveLoop_cons_error {rs : JSStr → Except JSStr ResolvedSymbol}
    {i : Nat} {a : JSStr} {rest : List JSStr} {e : JSStr}
    (hra : rs a = Except.error e) :
    (Symbolizer.resolveLoop i rs (a :: rest)).2.1 =
      (Symbolizer.resolveLoop i rs rest).2.1 := by
  simp [Symbolizer.resolveLoop, hra]

/-- When no candidate resolves to a location-carrying result (each one either
fails or succeeds without a location), the candidate loop's retained result is
the ok-result of the LAST candidate whose resolve succeeded — or nothing when
every candidate failed. -/
theorem resolveLoop_last_success {rs : JSStr → Except JSStr ResolvedSymbol} {i : Nat}
    {objs : List JSStr}
    (hall : ∀ u ∈ objs, (∃ e, rs u = Except.error e) ∨
        (∃ s, rs u = Except.ok s ∧ s.sourceLocation = none)) :
    ((objs.filter (fun u => (rs u).isOk)).getLast? = none ∧
      (Symbolizer.resolveLoop i rs objs).2.1 = none) ∨
    (∃ last s, (objs.filter (fun u => (rs u).isOk)).getLast? = some last ∧
      rs last = Except.ok s ∧ (Symbolizer.resolveLoop i rs objs).2.1 = some s) := by
  induction objs with
  | nil => exact Or.inl ⟨rfl, rfl⟩
  | cons a rest ih =>
    have iha := ih (fun u hu => hall u (List.mem_cons_of_mem _ hu))
    rcases hall a (List.mem_cons_self _ _) with ⟨e, he⟩ | ⟨s, hok, hloc⟩
    · have hfil : (a :: rest).filter (fun u => (rs u).isOk) =
          rest.filter (fun u => (rs u).isOk) := by
        simp [List.filter_cons, he, Except.isOk, Except.toBool]
      rw [hfil, resolveLoop_cons_error he]
      exact iha
    · have hfil : (a :: rest).filter (fun u => (rs u).isOk) =
          a :: rest.filter (fun u => (rs u).isOk) := by
        simp [List.filter_cons, hok, Except.isOk, Except.toBool]
      rw [hfil, resolveLoop_cons_ok_none hok hloc]
      rcases iha with ⟨hnone, hloop⟩ | ⟨last, s', hlast, hok', hloop⟩
      · right
        refine ⟨a, s, ?_, hok, by rw [hloop]⟩
        cases hfr : rest.filter (fun u => (rs u).isOk) with
        | nil => rfl
        | cons b t =>
          rw [hfr] at hnone
          simp at hnone
      · right
        refine ⟨last, s', ?_, hok', by rw [hloop]⟩
        cases hfr : rest.filter (fun u => (rs u).isOk) with
        | nil =>
          rw [hfr] at hlast
          simp at hlast
        | cons b t =>
          rw [hfr] at hlast
          rw [List.getLast?_cons_cons]
          exact hlast

/-! Claim theorems. -/

/-- C1: for a resolution request with candidates `[A, B]` in preference order,
if the working reader resolves A to a symbol with no source location and B to
a symbol with a source location, `Symbolizer.resolveToSymbol` returns B's
result: the location-carrying result from the later candidate replaces the
retained location-less result from the earlier, more-preferred candidate. -/
theorem resolveToSymbol_prefers_later_location (r : Symbolizer.ReaderBehavior)
    (a b : JSStr) (sa sb : ResolvedSymbol) (lb : ResolvedLocation)
    (hw : r.isWorking 0 = true)
    (ha : r.resolve a = Except.ok sa) (hla : sa.sourceLocation = none)
    (hb : r.resolve b = Except.ok sb) (hlb : sb.sourceLocation = some lb) :
    (Symbolizer.resolveToSymbol { locators := [Except.ok [a, b]], readers := [r] } none).2.1 =
      Except.ok sb := by
  simp [Symbolizer.resolveToSymbol, Symbolizer.getWorkingReader, Symbolizer.probeList, hw,
    Symbolizer.locateCodeObjects, Symbolizer.resolveLoop, ha, hla, hb, hlb]

/-- Witness for C1 at concrete inputs. -/
theorem resolveToSymbol_prefers_later_location_witness :
    rC1.isWorking 0 = true ∧
    rC1.resolve ("A.elf").data = Except.ok symAC1 ∧
    symAC1.sourceLocation = none ∧
    rC1.resolve ("B.elf").data = Except.ok symBC1 ∧
    symBC1.sourceLocation = some locC1 ∧
    (Symbolizer.resolveToSymbol
        { locators := [Except.ok [("A.elf").data, ("B.elf").data]], readers := [rC1] }
        none).2.1 = Except.ok symBC1 :=
  ⟨rfl, rfl, rfl, rfl, rfl,
    resolveToSymbol_prefers_later_location rC1 ("A.elf").data ("B.elf").data symAC1 symBC1
      locC1 rfl rfl rfl rfl rfl⟩

/-- C2: for a resolution request with candidates `[A, B]` in preference order,
if the working reader resolves A to a symbol that carries a source location,
the reader's resolve operation is never invoked on B: the invocation trace is
exactly one health probe followed by the single resolve of A. -/
theorem resolveToSymbol_short_circuits_on_location (r : Symbolizer.ReaderBehavior)
    (a b : JSStr) (sa : ResolvedSymbol) (la : ResolvedLocation)
    (hw : r.isWorking 0 = true)
    (ha : r.resolve a = Except.ok sa) (hla : sa.sourceLocation = some la) :
    (Symbolizer.resolveToSymbol { locators := [Except.ok [a, b]], readers := [r] } none).1 =
      [Symbolizer.Event.isWorking 0, Symbolizer.Event.resolve 0 a] ∧
    (b ≠ a → Symbolizer.Event.resolve 0 b ∉
      (Symbolizer.resolveToSymbol { locators := [Except.ok [a, b]], readers := [r] } none).1) := by
  have ht : (Symbolizer.resolveToSymbol { locators := [Except.ok [a, b]], readers := [r] } none).1 =
      [Symbolizer.Event.isWorking 0, Symbolizer.Event.resolve 0 a] := by
    simp [Symbolizer.resolveToSymbol, Symbolizer.getWorkingReader, Symbolizer.probeList, hw,
      Symbolizer.locateCodeObjects, Symbolizer.resolveLoop, ha, hla]
  refine ⟨ht, fun hne => ?_⟩
  rw [ht]
  simp [hne]

/-- Witness for C2 at concrete inputs. -/
theorem resolveToSymbol_short_circuits_on_location_witness :
    rC2.isWorking 0 = true ∧
    rC2.resolve ("A.elf").data = Except.ok symAC2 ∧
    symAC2.sourceLocation = some locC2 ∧
    ((Symbolizer.resolveToSymbol
        { locators := [Except.ok [("A.elf").data, ("B.elf").data]], readers := [rC2] }
        none).1 = [Symbolizer.Event.isWorking 0, Symbolizer.Event.resolve 0 ("A.elf").data] ∧
     (("B.elf").data ≠ ("A.elf").data → Symbolizer.Event.resolve 0 ("B.elf").data ∉
        (Symbolizer.resolveToSymbol
          { locators := [Except.ok [("A.elf").data, ("B.elf").data]], readers := [rC2] }
          none).1)) :=
  ⟨rfl, rfl, rfl,
    resolveToSymbol_short_circuits_on_location rC2 ("A.elf").data ("B.elf").data symAC2
      locC2 rfl rfl rfl⟩

/-- Counterexample to C3 as stated: with a hot package modified at time 200
and a cold package at time 100, `findObjectUris` puts the cold (oldest)
artifact first, not the most-recently-modified one. -/
theorem findObjectUris_returns_oldest_first_cex :
    PROSCodeObjectLocator.findObjectUris statC3 ("proj").data =
      Except.ok [("proj/bin/cold.package.elf").data, ("proj/bin/hot.package.elf").data] ∧
    statC3 ("proj/bin/cold.package.elf").data = some 100 ∧
    statC3 ("proj/bin/hot.package.elf").data = some 200 := by
  refine ⟨?_, rfl, rfl⟩
  rfl

/-- C3 (amended): `PROSCodeObjectLocator.findObjectUris` returns every
existing fixed artifact, ordered ascending by modification time — the
least-recently-modified artifact comes first, not the most recent. -/
theorem findObjectUris_ascending_mtime (stat : JSStr → Option Int) (folder : JSStr)
    (l : List JSStr)
    (hl : PROSCodeObjectLocator.findObjectUris stat folder = Except.ok l) :
    (∀ p ∈ PROSCodeObjectLocator.prosObjectPaths,
        (stat (joinPath folder p)).isSome = true → joinPath folder p ∈ l) ∧
    (∀ u v, l.head? = some u → v ∈ l →
        ∃ a b, stat u = some a ∧ stat v = some b ∧ a ≤ b) := by
  have hl' : ((PROSCodeObjectLocator.sortByTimestamp
      ((PROSCodeObjectLocator.prosObjectPaths.map
        (fun p => PROSCodeObjectLocator.getCodeObjectAt stat (joinPath folder p))).filterMap
          id)).map TimestampedFile.uri) = l := by
    simpa [PROSCodeObjectLocator.findObjectUris,
      PROSCodeObjectLocator.isPROSProjectPromiseTruthy] using hl
  constructor
  · intro p hp hsome
    obtain ⟨m, hm⟩ := Option.isSome_iff_exists.mp hsome
    have hobj : (⟨joinPath folder p, m⟩ : TimestampedFile) ∈
        (PROSCodeObjectLocator.prosObjectPaths.map
          (fun q => PROSCodeObjectLocator.getCodeObjectAt stat (joinPath folder q))).filterMap
            id := by
      rw [List.mem_filterMap]
      refine ⟨some ⟨joinPath folder p, m⟩, ?_, rfl⟩
      rw [List.mem_map]
      exact ⟨p, hp, by simp [PROSCodeObjectLocator.getCodeObjectAt, hm]⟩
    rw [← hl', List.mem_map]
    exact ⟨⟨joinPath folder p, m⟩, mem_sortByTimestamp.mpr hobj, rfl⟩
  · intro u v hu hv
    rw [← hl'] at hu hv
    rw [List.head?_map, Option.map_eq_some'] at hu
    obtain ⟨tf0, htf0, hu0⟩ := hu
    rw [List.mem_map] at hv
    obtain ⟨tfv, htfv, hv0⟩ := hv
    have hs0 : stat tf0.uri = some tf0.timestamp :=
      stat_of_mem_objects (mem_sortByTimestamp.mp (List.mem_of_mem_head? htf0))
    have hsv : stat tfv.uri = some tfv.timestamp :=
      stat_of_mem_objects (mem_sortByTimestamp.mp htfv)
    refine ⟨tf0.timestamp, tfv.timestamp, ?_, ?_, ?_⟩
    · rw [← hu0]; exact hs0
    · rw [← hv0]; exact hsv
    · exact head_timestamp_le (pairwise_sortByTimestamp _) htf0 htfv

/-- Witness for amended C3 at concrete inputs. -/
theorem findObjectUris_ascending_mtime_witness :
    (∀ p ∈ PROSCodeObjectLocator.prosObjectPaths,
        (statC3 (joinPath ("proj").data p)).isSome = true → joinPath ("proj").data p ∈
          [("proj/bin/cold.package.elf").data, ("proj/bin/hot.package.elf").data]) ∧
    (∀ u v,
        ([("proj/bin/cold.package.elf").data, ("proj/bin/hot.package.elf").data].head? =
          some u) →
        v ∈ [("proj/bin/cold.package.elf").data, ("proj/bin/hot.package.elf").data] →
        ∃ a b, statC3 u = some a ∧ statC3 v = some b ∧ a ≤ b) :=
  findObjectUris_ascending_mtime statC3 ("proj").data _ rfl

/-- C4: the source's guard `if (!PROSCodeObjectLocator.isPROSProject(folder))`
tests an un-awaited `Promise` (always truthy), so for a folder without the
`project.pros` marker (here holding only `bin/monolith.elf`),
`findObjectUris` does not throw the not-a-PROS-project error: it probes the
fixed artifact paths anyway and succeeds with the monolith artifact, even
though `isPROSProject` reports `false`. -/
theorem findObjectUris_ignores_missing_marker :
    PROSCodeObjectLocator.isPROSProject statC4 ("proj").data = false ∧
    PROSCodeObjectLocator.findObjectUris statC4 ("proj").data =
      Except.ok [("proj/bin/monolith.elf").data] :=
  ⟨rfl, rfl⟩

/-- Counterexample to C5 as stated: with one locator succeeding with zero
candidates and one configured reader, `resolveToSymbol` fails with the
no-candidates error, yet the configured reader IS invoked — its `isWorking`
health check runs (it is started before the locator loop in the source). -/
theorem resolveToSymbol_probes_reader_health_cex :
    (Symbolizer.resolveToSymbol cfgC5 none).2.1 =
      Except.error Symbolizer.SymErr.noCandidates ∧
    Symbolizer.Event.isWorking 0 ∈ (Symbolizer.resolveToSymbol cfgC5 none).1 :=
  ⟨rfl, by simp [cfgC5, Symbolizer.resolveToSymbol, Symbolizer.getWorkingReader,
    Symbolizer.probeList, Symbolizer.locateCodeObjects]⟩

/-- C5 (amended): when every locator yields zero candidates (by error or by
empty result), `Symbolizer.resolveToSymbol` fails with the no-candidates
error and no reader's RESOLVE operation is ever invoked (reader health checks
may still be probed, as the counterexample shows). -/
theorem resolveToSymbol_noCandidates_skips_resolve (cfg : Symbolizer.Config)
    (cache : Option Nat)
    (h : ∀ l ∈ cfg.locators, l = Except.ok [] ∨ ∃ e, l = Except.error e) :
    (Symbolizer.resolveToSymbol cfg cache).2.1 =
      Except.error Symbolizer.SymErr.noCandidates ∧
    ∀ i u, Symbolizer.Event.resolve i u ∉ (Symbolizer.resolveToSymbol cfg cache).1 := by
  have hloc := locateCodeObjects_eq_nil h
  constructor
  · simp [Symbolizer.resolveToSymbol, hloc]
  · intro i u
    simpa [Symbolizer.resolveToSymbol, hloc] using
      getWorkingReader_no_resolve cfg.readers cache 0 i u

/-- Witness for amended C5 at concrete inputs. -/
theorem resolveToSymbol_noCandidates_skips_resolve_witness :
    (Symbolizer.resolveToSymbol cfgC5w none).2.1 =
      Except.error Symbolizer.SymErr.noCandidates ∧
    ∀ i u, Symbolizer.Event.resolve i u ∉ (Symbolizer.resolveToSymbol cfgC5w none).1 :=
  resolveToSymbol_noCandidates_skips_resolve cfgC5w none (by
    intro l hl
    simp only [cfgC5w, List.mem_cons, List.mem_singleton] at hl
    rcases hl with rfl | rfl | h
    · exact Or.inr ⟨_, rfl⟩
    · exact Or.inl rfl
    · exact absurd h (by simp))

/-- Counterexample to C6 as stated: when the second output line is the bare
placeholder `??` (no colon), the split-at-last-colon path component is `""`,
not `"??"`, so the unknown-location check misses and the reader returns a
PRESENT (garbage) location rather than an absent one. -/
theorem gnu_resolve_bare_unknown_has_location_cex :
    (GNUBinutilsCodeObjectReader.resolveToSymbolInObject ("foo\n??").data
        ("obj.elf").data).map (fun r => (r.symbolName, r.sourceLocation.isSome)) =
      Except.ok (("foo").data, true) := by
  rfl

/-- C6 (amended): for addr2line output whose second line's text before the
last colon is `??` (the form the tool actually emits, e.g. `??:0` or `??:?`),
the GNU Binutils reader succeeds with the first line as symbol name and an
absent source location — not a parse error. -/
theorem gnu_resolve_unknown_path_no_location (stdout codeObject sym loc : JSStr)
    (rest : List JSStr)
    (hs : splitOnNewline (trimJS stdout) = sym :: loc :: rest)
    (hp : substringJS loc 0 (lastIndexOfJS ':' loc) = ("??").data) :
    GNUBinutilsCodeObjectReader.resolveToSymbolInObject stdout codeObject =
      Except.ok { sourceLocation := none, codeObject := codeObject, symbolName := sym } := by
  simp [GNUBinutilsCodeObjectReader.resolveToSymbolInObject, hs,
    GNUBinutilsCodeObjectReader.resolveLocation, hp]

/-- Witness for amended C6 at concrete inputs. -/
theorem gnu_resolve_unknown_path_no_location_witness :
    splitOnNewline (trimJS ("foo\n??:0").data) = ("foo").data :: ("??:0").data :: [] ∧
    substringJS ("??:0").data 0 (lastIndexOfJS ':' ("??:0").data) = ("??").data ∧
    GNUBinutilsCodeObjectReader.resolveToSymbolInObject ("foo\n??:0").data ("obj.elf").data =
      Except.ok { sourceLocation := none, codeObject := ("obj.elf").data,
                  symbolName := ("foo").data } :=
  ⟨rfl, rfl, gnu_resolve_unknown_path_no_location ("foo\n??:0").data ("obj.elf").data
    ("foo").data ("??:0").data [] rfl rfl⟩

/-- C7: for llvm-symbolizer JSON output whose first entry's first symbol has a
non-empty `FunctionName` but no `FileName`, the LLVM reader succeeds with that
symbol name and an absent source location, rather than failing. -/
theorem llvm_resolve_missing_filename_succeeds (parsedOutput : List LLVMSymbolizerEntry)
    (co : JSStr) (e : LLVMSymbolizerEntry) (s : LLVMSymbolizerSymbol)
    (he : parsedOutput.head? = some e) (hs : e.Symbol.head? = some s)
    (hfn : s.FunctionName ≠ []) (hfile : s.FileName = []) :
    LLVMCodeObjectReader.resolveToSymbolInObject parsedOutput co =
      Except.ok { sourceLocation := none, codeObject := co, symbolName := s.FunctionName } := by
  simp [LLVMCodeObjectReader.resolveToSymbolInObject, he, hs,
    LLVMCodeObjectReader.resolveLocation, hfile, hfn]

/-- Witness for C7 at concrete inputs. -/
theorem llvm_resolve_missing_filename_succeeds_witness :
    [entryC7].head? = some entryC7 ∧
    entryC7.Symbol.head? = some symC7 ∧
    symC7.FunctionName ≠ [] ∧
    symC7.FileName = [] ∧
    LLVMCodeObjectReader.resolveToSymbolInObject [entryC7] ("bin/monolith.elf").data =
      Except.ok { sourceLocation := none, codeObject := ("bin/monolith.elf").data,
                  symbolName := symC7.FunctionName } :=
  ⟨rfl, rfl, by decide, rfl,
    llvm_resolve_missing_filename_succeeds [entryC7] ("bin/monolith.elf").data entryC7 symC7
      rfl rfl (by decide) rfl⟩

/-- C8: when the cached reader's health re-check fails, `getWorkingReader`
clears the cache and re-probes the full configured reader list in priority
order (the trace is the failed re-check followed by the fresh probing loop,
and the outcome is the fresh loop's); any reader it returns passed a health
check strictly after the failed re-check, so the stale cached reader is never
returned without a successful re-check. -/
theorem getWorkingReader_reprobes_on_failed_recheck
    (readers : List Symbolizer.ReaderBehavior) (i : Nat)
    (r : Symbolizer.ReaderBehavior) (t : Nat)
    (hi : readers[i]? = some r) (hf : r.isWorking t = false) :
    (Symbolizer.getWorkingReader readers (some i) t).1 =
        Symbolizer.Event.isWorking i :: (Symbolizer.probeList readers 0 (t + 1)).1 ∧
    (Symbolizer.getWorkingReader readers (some i) t).2.1 =
        (Symbolizer.probeList readers 0 (t + 1)).2.1 ∧
    (∀ j, (Symbolizer.getWorkingReader readers (some i) t).2.1 = some j →
        ∃ u s, t < u ∧ readers[j]? = some s ∧ s.isWorking u = true) := by
  have h2 : (Symbolizer.getWorkingReader readers (some i) t).2.1 =
      (Symbolizer.probeList readers 0 (t + 1)).2.1 := by
    simp [Symbolizer.getWorkingReader, hi, hf]
  refine ⟨by simp [Symbolizer.getWorkingReader, hi, hf], h2, ?_⟩
  intro j hj
  rw [h2] at hj
  obtain ⟨u, s, hu, _, hget, hws⟩ := probeList_result_healthy hj
  refine ⟨u, s, by omega, ?_, hws⟩
  simpa using hget

/-- Witness for C8 at concrete inputs. -/
theorem getWorkingReader_reprobes_on_failed_recheck_witness :
    ([rBadC8, rGoodC8][0]? = some rBadC8) ∧
    rBadC8.isWorking 0 = false ∧
    ((Symbolizer.getWorkingReader [rBadC8, rGoodC8] (some 0) 0).1 =
        Symbolizer.Event.isWorking 0 :: (Symbolizer.probeList [rBadC8, rGoodC8] 0 1).1 ∧
     (Symbolizer.getWorkingReader [rBadC8, rGoodC8] (some 0) 0).2.1 =
        (Symbolizer.probeList [rBadC8, rGoodC8] 0 1).2.1 ∧
     (∀ j, (Symbolizer.getWorkingReader [rBadC8, rGoodC8] (some 0) 0).2.1 = some j →
        ∃ u s, 0 < u ∧ [rBadC8, rGoodC8][j]? = some s ∧ s.isWorking u = true)) :=
  ⟨rfl, rfl, getWorkingReader_reprobes_on_failed_recheck [rBadC8, rGoodC8] 0 rBadC8 0 rfl rfl⟩

/-- C9: the VEXCode debug-metadata auto-fix is idempotent: on contents it has
already transformed, `canAutoFixVEXCodeDebugInfo` returns `false` (the
inserted `CFLAGS += -g` text contains the blocking `" -g"` marker) and a
second `autoFixVEXCodeDebugInfo` application leaves the contents unchanged. -/
theorem autoFixVEXCodeDebugInfo_idempotent (makefile : JSStr)
    (h : Symbolizer.canAutoFixVEXCodeDebugInfo makefile = true) :
    Symbolizer.canAutoFixVEXCodeDebugInfo (Symbolizer.autoFixVEXCodeDebugInfo makefile) =
      false ∧
    Symbolizer.autoFixVEXCodeDebugInfo (Symbolizer.autoFixVEXCodeDebugInfo makefile) =
      Symbolizer.autoFixVEXCodeDebugInfo makefile := by
  have hpoint : includesJS Symbolizer.vexCodeAutoFixDebugInfoInsertionPoint makefile = true := by
    simp only [Symbolizer.canAutoFixVEXCodeDebugInfo, Bool.and_eq_true] at h
    exact h.1.2
  have hfix : Symbolizer.autoFixVEXCodeDebugInfo makefile =
      replaceFirst Symbolizer.vexCodeAutoFixDebugInfoInsertionPoint
        Symbolizer.debugInfoReplacement makefile := by
    simp [Symbolizer.autoFixVEXCodeDebugInfo, h]
  obtain ⟨a, b, hab⟩ := replaceFirst_decomp Symbolizer.vexCodeAutoFixDebugInfoInsertionPoint
    Symbolizer.debugInfoReplacement makefile hpoint
  have hrep : includesJS (" -g").data Symbolizer.debugInfoReplacement = true := by decide
  have hincl : includesJS (" -g").data (Symbolizer.autoFixVEXCodeDebugInfo makefile) = true := by
    rw [hfix, hab, includesJS_iff_substring]
    exact ((includesJS_iff_substring _ _).mp hrep).trans ⟨a, b, rfl⟩
  have hcan : Symbolizer.canAutoFixVEXCodeDebugInfo
      (Symbolizer.autoFixVEXCodeDebugInfo makefile) = false := by
    simp [Symbolizer.canAutoFixVEXCodeDebugInfo, hincl]
  refine ⟨hcan, ?_⟩
  simp only [Symbolizer.autoFixVEXCodeDebugInfo] at hcan ⊢
  rw [hcan]
  simp

/-- Witness for C9 at a concrete pristine VEXcode makefile. -/
theorem autoFixVEXCodeDebugInfo_idempotent_witness :
    Symbolizer.canAutoFixVEXCodeDebugInfo makefileC9 = true ∧
    (Symbolizer.canAutoFixVEXCodeDebugInfo (Symbolizer.autoFixVEXCodeDebugInfo makefileC9) =
        false ∧
     Symbolizer.autoFixVEXCodeDebugInfo (Symbolizer.autoFixVEXCodeDebugInfo makefileC9) =
       Symbolizer.autoFixVEXCodeDebugInfo makefileC9) :=
  ⟨by decide, autoFixVEXCodeDebugInfo_idempotent makefileC9 (by decide)⟩

/-- C10: for a resolution request in which no candidate yields a
location-carrying result but at least one candidate (in particular, two or
more) yields a location-less successful result, `Symbolizer.resolveToSymbol`
returns the location-less `ResolvedSymbol` produced by the LAST candidate in
iteration order whose resolve succeeded (each later location-less success
overwrites the earlier retained one, and failures in between are skipped) —
not the result of the most-preferred candidate. -/
theorem resolveToSymbol_keeps_last_locationless (r : Symbolizer.ReaderBehavior)
    (objs : List JSStr) (hw : r.isWorking 0 = true)
    (hall : ∀ u ∈ objs, (∃ e, r.resolve u = Except.error e) ∨
        (∃ s, r.resolve u = Except.ok s ∧ s.sourceLocation = none))
    (hsome : objs.filter (fun u => (r.resolve u).isOk) ≠ []) :
    ∃ last s, (objs.filter (fun u => (r.resolve u).isOk)).getLast? = some last ∧
      r.resolve last = Except.ok s ∧ s.sourceLocation = none ∧
      (Symbolizer.resolveToSymbol { locators := [Except.ok objs], readers := [r] } none).2.1 =
        Except.ok s := by
  rcases resolveLoop_last_success (i := 0) hall with ⟨hnone, _⟩ | ⟨last, s, hlast, hok, hloop⟩
  · cases hfr : objs.filter (fun u => (r.resolve u).isOk) with
    | nil => exact absurd hfr hsome
    | cons b t =>
      rw [hfr] at hnone
      simp at hnone
  · have hmemf : last ∈ objs.filter (fun u => (r.resolve u).isOk) := by
      cases hfr : objs.filter (fun u => (r.resolve u).isOk) with
      | nil =>
        rw [hfr] at hlast
        simp at hlast
      | cons b t =>
        rw [hfr] at hlast
        exact List.mem_of_mem_getLast? hlast
    have hmem : last ∈ objs := List.mem_of_mem_filter hmemf
    have hloc : s.sourceLocation = none := by
      rcases hall last hmem with ⟨e, he⟩ | ⟨s2, hok2, hloc2⟩
      · rw [he] at hok
        exact absurd hok (by simp)
      · rw [hok] at hok2
        injection hok2 with hss
        rw [← hss] at hloc2
        exact hloc2
    refine ⟨last, s, hlast, hok, hloc, ?_⟩
    have hne : objs ≠ [] := by
      intro hobjs
      rw [hobjs] at hsome
      exact hsome rfl
    have hlen : ¬ objs.length = 0 := by
      cases objs with
      | nil => exact absurd rfl hne
      | cons x xs => simp
    have hlocs : Symbolizer.locateCodeObjects [Except.ok objs] = objs := by
      simp only [Symbolizer.locateCodeObjects]
      rw [if_pos (Nat.pos_of_ne_zero hlen)]
    simp [Symbolizer.resolveToSymbol, Symbolizer.getWorkingReader, Symbolizer.probeList, hw,
      hlocs, hlen, hloop]

/-- Witness for C10 at a mixed concrete candidate list: `A.elf` succeeds
without a location, `E.elf` fails, `B.elf` succeeds without a location; the
request returns the result read from `B.elf`, the last location-less success. -/
theorem resolveToSymbol_keeps_last_locationless_witness :
    rC10.isWorking 0 = true ∧
    (∀ u ∈ [("A.elf").data, ("E.elf").data, ("B.elf").data],
        (∃ e, rC10.resolve u = Except.error e) ∨
        (∃ s, rC10.resolve u = Except.ok s ∧ s.sourceLocation = none)) ∧
    ([("A.elf").data, ("E.elf").data, ("B.elf").data].filter
        (fun u => (rC10.resolve u).isOk) ≠ []) ∧
    (∃ last s,
        ([("A.elf").data, ("E.elf").data, ("B.elf").data].filter
          (fun u => (rC10.resolve u).isOk)).getLast? = some last ∧
        rC10.resolve last = Except.ok s ∧ s.sourceLocation = none ∧
        (Symbolizer.resolveToSymbol
          { locators := [Except.ok [("A.elf").data, ("E.elf").data, ("B.elf").data]],
            readers := [rC10] } none).2.1 = Except.ok s) := by
  have hall : ∀ u ∈ [("A.elf").data, ("E.elf").data, ("B.elf").data],
      (∃ e, rC10.resolve u = Except.error e) ∨
      (∃ s, rC10.resolve u = Except.ok s ∧ s.sourceLocation = none) := by
    intro u hu
    simp only [List.mem_cons, List.not_mem_nil, or_false] at hu
    rcases hu with rfl | rfl | rfl
    · exact Or.inr ⟨symAC10, rfl, rfl⟩
    · exact Or.inl ⟨("boom").data, rfl⟩
    · exact Or.inr ⟨symBC10, rfl, rfl⟩
  exact ⟨rfl, hall, by decide,
    resolveToSymbol_keeps_last_locationless rC10
      [("A.elf").data, ("E.elf").data, ("B.elf").data] rfl hall (by decide)⟩
